import Mathlib

/-!
# A verification model of the math-equation-parser engine

Shallow embedding of the tokenizing scanner, the operator-precedence
processor and the parser driver of the repository.  The sources embedded
are `src/operator.ts`, `src/core_operators.ts`, `src/get_arity.ts`,
`src/error_utils.ts`, `src/math_ast.ts`, `src/get_claim_token.ts`,
`src/parser_def.ts`, `src/operator_processor.ts` and `src/parser.ts`.

Conventions used throughout:
* JavaScript arrays used as stacks (push/pop at the end, and
  `splice(-arity, arity)`) are modelled as Lean lists with the top of the
  stack at the head; `splice(-arity, arity)` becomes
  `(take arity).reverse` / `drop arity`, which also reproduces the
  clamping behaviour of `splice` when fewer than `arity` elements remain.
* Thrown exceptions are modelled with `Except ParseError`; a JavaScript
  exception aborts the whole `parse` call, so intermediate mutations of
  the processor that precede a throw are unobservable and the `Except`
  monad is a faithful model.
* `parseFloat` applied to a span matched by the literal regular
  expression is modelled exactly (no rounding) as an unnormalized decimal
  `mantissa * 10 ^ exponent10`.
* The driver's `while` loop is modelled with explicit fuel; the dedicated
  outcome `ParseOutcome.outOfFuel` marks a loop that did not finish within
  the given number of iterations, so divergence of the source loop is the
  statement that every fuel value yields `outOfFuel`.
-/

/-- From `operator.ts`: `enum OperatorType` is implicit in the three
constructors of `Operator` below.  `enum OperatorPrecedence`. -/
inductive OperatorPrecedence
  | Low
  | Normal
  | Medium
  | High
deriving DecidableEq, Repr

/-- From `operator.ts`: `OperatorPrecedenceMap`, Low 1, Normal 2, Medium 3,
High 4. -/
def OperatorPrecedenceMap : OperatorPrecedence → Nat
  | .Low => 1
  | .Normal => 2
  | .Medium => 3
  | .High => 4

/-- From `operator.ts`: the closed union `Operator` of `UnaryOperator`
(`type`, `name`, `symbol`), `BinaryOperator` (`type`, `name`, `symbol`,
`precedence`) and `FunctionOperator` (`type`, `arity`, `name`, `symbol`). -/
inductive Operator
  | Unary (name symbol : String)
  | Binary (name symbol : String) (precedence : OperatorPrecedence)
  | Function (arity : Nat) (name symbol : String)
deriving DecidableEq, Repr

/-- The `symbol` field shared by the three operator kinds. -/
def Operator.symbol : Operator → String
  | .Unary _ symbol => symbol
  | .Binary _ symbol _ => symbol
  | .Function _ _ symbol => symbol

/-- From `get_arity.ts`: `getArity`. -/
def getArity : Operator → Nat
  | .Unary _ _ => 1
  | .Binary _ _ _ => 2
  | .Function arity _ _ => arity

namespace CoreOperators

/-- From `core_operators.ts`: `CoreOperators.cosin`. -/
def cosin : Operator := .Function 1 ("Cosine") ("cosin")

/-- From `core_operators.ts`: `CoreOperators.diff`. -/
def diff : Operator := .Binary ("Difference") ("-") .Normal

/-- From `core_operators.ts`: `CoreOperators.exp`. -/
def exp : Operator := .Binary ("Exponent") ("^") .High

/-- From `core_operators.ts`: `CoreOperators.log`. -/
def log : Operator := .Function 1 ("Log10") ("log")

/-- From `core_operators.ts`: `CoreOperators.pow`. -/
def pow : Operator := .Function 1 ("Exponent") ("pow")

/-- From `core_operators.ts`: `CoreOperators.prod`. -/
def prod : Operator := .Binary ("Product") ("*") .Medium

/-- From `core_operators.ts`: `CoreOperators.quot`. -/
def quot : Operator := .Binary ("Quotient") ("/") .Medium

/-- From `core_operators.ts`: `CoreOperators.sin`. -/
def sin : Operator := .Function 1 ("Sine") ("sin")

/-- From `core_operators.ts`: `CoreOperators.sum`. -/
def sum : Operator := .Binary ("Sum") ("+") .Normal

/-- From `core_operators.ts`: `CoreOperators.tan`. -/
def tan : Operator := .Function 1 ("Tangent") ("tan")

/-- Modelled from the spec: the `unaryMinus` entry of the default operator
catalogue.  `parser.ts` references `CoreOperators.unaryMinus` (the special
built-in unary minus of spec section 4.4), but the revision of
`core_operators.ts` available in the sources lacks the entry; the spec
("a single built-in unary-minus operator") together with the parser's
older in-repo revision (`UnaryMinusOperator`: unary kind, name `Minus`,
symbol `-`) determines it. -/
def unaryMinus : Operator := .Unary ("Minus") ("-")

end CoreOperators

/-- `Object.values(CoreOperators)` in key-insertion order.  The position of
the modelled `unaryMinus` entry is immaterial: the parser constructor
excludes it from the unary scan list, and it is the only unary operator of
the catalogue. -/
def CoreOperatorsValues : List Operator :=
  [CoreOperators.cosin, CoreOperators.diff, CoreOperators.exp,
   CoreOperators.log, CoreOperators.pow, CoreOperators.prod,
   CoreOperators.quot, CoreOperators.sin, CoreOperators.sum,
   CoreOperators.tan, CoreOperators.unaryMinus]

/-- From `error_utils.ts`: the error classes thrown by the engine.
`MathSyntaxError` carries the message after the constructor's
`msg ?? "Math syntax error"` default; `GenericError` models a plain
JavaScript `throw Error(...)` (used by `getPrecedenceValue`). -/
inductive ParseError
  | MathSyntaxError (msg : String)
  | IncorrectArityError
  | GenericError (msg : String)
deriving DecidableEq, Repr

/-- From `error_utils.ts`:
`export function assert(flag: boolean, msg: string | undefined) {}` —
the body of the function is empty, so it returns `undefined` regardless of
`flag` and never throws. -/
def assert (flag : Bool) (msg : String) : Unit := ()

/-- The exact result of `parseFloat` on a span matched by the literal
regular expression `[0-9]*\.?[0-9]+([eE][-+]?[0-9]+)?`: the rational
number `mantissa * 10 ^ exponent10`, kept unnormalized so that concrete
trees evaluate by kernel reduction. -/
structure DecimalValue where
  mantissa : Int
  exponent10 : Int
deriving DecidableEq, Repr

/-- From `math_ast.ts`: `MathASTNodeType` (also used by the processor as
part of `TokenType`). -/
inductive MathASTNodeType
  | Literal
  | BinaryOperator
  | UnaryOperator
  | FunctionOperator
  | Variable
deriving DecidableEq, Repr

/-- From `operator_processor.ts`:
`TokenType = MathASTNodeType | OpenSymbol | CloseSymbol` where
`OpenSymbol = "("` and `CloseSymbol = "," | ")"`. -/
inductive TokenType
  | Literal
  | BinaryOperator
  | UnaryOperator
  | FunctionOperator
  | Variable
  | openParen
  | closeParen
  | comma
deriving DecidableEq, Repr

/-- From `operator_processor.ts`: `CloseSymbol = "," | ")"`. -/
inductive CloseSymbol
  | comma
  | closeParen
deriving DecidableEq, Repr

/-- The `TokenType` recorded for a close symbol. -/
def CloseSymbol.toTokenType : CloseSymbol → TokenType
  | .comma => .comma
  | .closeParen => .closeParen

/-- From `math_ast.ts` (the revision with source spans): `MathASTNode`.
The binary node's pair `value: [MathASTNode, MathASTNode]` is modelled by
the two fields `left` and `right`; the unary node's singleton list by one
child field. -/
inductive MathASTNode
  | Literal (value : DecimalValue) (sourceStart sourceEnd : Nat)
  | Variable (value : String) (sourceStart sourceEnd : Nat)
  | UnaryOperator (operator : Operator) (child : MathASTNode)
      (sourceStart sourceEnd : Nat)
  | BinaryOperator (operator : Operator) (left right : MathASTNode)
      (sourceStart sourceEnd : Nat)
  | FunctionOperator (operator : Operator) (value : List MathASTNode)
      (sourceStart sourceEnd : Nat)
deriving Repr

/-- From `math_ast.ts`: `makeLiteralNode`. -/
def makeLiteralNode (value : DecimalValue) (sourceStart sourceEnd : Nat) :
    MathASTNode :=
  .Literal value sourceStart sourceEnd

/-- From `math_ast.ts`: `makeVariableNode`. -/
def makeVariableNode (value : String) (sourceStart sourceEnd : Nat) :
    MathASTNode :=
  .Variable value sourceStart sourceEnd

/-- From `math_ast.ts`: `makeOperatorNode`, with the arity validation that
throws `IncorrectArityError` when the child count does not match. -/
def makeOperatorNode (operator : Operator) (value : List MathASTNode)
    (sourceStart sourceEnd : Nat) : Except ParseError MathASTNode :=
  match operator with
  | .Binary _ _ _ =>
    match value with
    | [l, r] => .ok (.BinaryOperator operator l r sourceStart sourceEnd)
    | _ => .error .IncorrectArityError
  | .Unary _ _ =>
    match value with
    | [c] => .ok (.UnaryOperator operator c sourceStart sourceEnd)
    | _ => .error .IncorrectArityError
  | .Function arity _ _ =>
    if value.length == arity then
      .ok (.FunctionOperator operator value sourceStart sourceEnd)
    else .error .IncorrectArityError

/-- From `parser_def.ts`: `ParserDef`, modelled after the merge with
`DefaultParserDef` (every field present). -/
structure ParserDef where
  implicitMultiply : Bool
  isLeftAssociative : Bool
  validVariables : Option (List String)
deriving DecidableEq, Repr

/-- From `parser_def.ts`: `DefaultParserDef`. -/
def DefaultParserDef : ParserDef :=
  { implicitMultiply := true
    isLeftAssociative := true
    validVariables := none }

/-- `text.charAt(pointer)` (`none` models the empty string returned out of
range). -/
def charAt (text : List Char) (pointer : Nat) : Option Char :=
  (text.drop pointer).head?

/-- The length matched at the start of `cs` by the exponent-suffix group
`([eE][-+]?[0-9]+)?` of the literal regular expression of
`get_claim_token.ts`, or `0` when the group fails and backtracks to the
empty match. -/
def matchExponent (cs : List Char) : Nat :=
  match cs with
  | 'e' :: rest =>
    let (signLen, r2) :=
      match rest with
      | '+' :: r => (1, r)
      | '-' :: r => (1, r)
      | _ => (0, rest)
    let d := r2.takeWhile Char.isDigit
    if d.length > 0 then 1 + signLen + d.length else 0
  | 'E' :: rest =>
    let (signLen, r2) :=
      match rest with
      | '+' :: r => (1, r)
      | '-' :: r => (1, r)
      | _ => (0, rest)
    let d := r2.takeWhile Char.isDigit
    if d.length > 0 then 1 + signLen + d.length else 0
  | _ => 0

/-- The length matched at the start of `cs` by the anchored literal
regular expression `^[0-9]*\.?[0-9]+([eE][-+]?[0-9]+)?` of
`get_claim_token.ts` (with JavaScript backtracking: a digit run followed
by a dot with no digit after it backtracks to the digit run alone), or
`none` when the expression does not match. -/
def matchLiteral (cs : List Char) : Option Nat :=
  let d1 := cs.takeWhile Char.isDigit
  let r1 := cs.drop d1.length
  match r1 with
  | '.' :: r2 =>
    let d2 := r2.takeWhile Char.isDigit
    if d2.length > 0 then
      some (d1.length + 1 + d2.length + matchExponent (r2.drop d2.length))
    else if d1.length > 0 then
      some (d1.length + matchExponent r1)
    else none
  | _ =>
    if d1.length > 0 then some (d1.length + matchExponent r1) else none

/-- From `get_claim_token.ts`: `getLiteralClaimToken` (a claim token is the
pair of its `start` and `end` offsets). -/
def getLiteralClaimToken (text : List Char) (pointer : Nat) :
    Option (Nat × Nat) :=
  match matchLiteral (text.drop pointer) with
  | some len => some (pointer, pointer + len)
  | none => none

/-- From `get_claim_token.ts`: `getVariableClaimToken`.  The test
`/^[a-zA-Z]/` is ASCII `Char.isAlpha`; a whitelist miss reports no claim. -/
def getVariableClaimToken (validVariables : Option (List String))
    (text : List Char) (pointer : Nat) : Option (Nat × Nat) :=
  match text.drop pointer with
  | [] => none
  | c :: _ =>
    if c.isAlpha then
      match validVariables with
      | some vs =>
        if vs.contains (String.mk [c]) then some (pointer, pointer + 1)
        else none
      | none => some (pointer, pointer + 1)
    else none

/-- From `get_claim_token.ts`: `getOperatorClaimToken`; each operator kind
succeeds exactly when the operator's symbol is a prefix of the text at the
cursor. -/
def getOperatorClaimToken (operator : Operator) (text : List Char)
    (pointer : Nat) : Option (Nat × Nat) :=
  let subtext := text.drop pointer
  match operator with
  | .Unary _ symbol =>
    if symbol.toList.isPrefixOf subtext then
      some (pointer, pointer + symbol.length)
    else none
  | .Binary _ symbol _ =>
    if symbol.toList.isPrefixOf subtext then
      some (pointer, pointer + symbol.length)
    else none
  | .Function _ _ symbol =>
    if symbol.toList.isPrefixOf subtext then
      some (pointer, pointer + symbol.length)
    else none

/-- From `get_claim_token.ts`: `getWhitespaceClaimToken` (`/^\s+/`). -/
def getWhitespaceClaimToken (text : List Char) (pointer : Nat) :
    Option (Nat × Nat) :=
  let run := (text.drop pointer).takeWhile Char.isWhitespace
  if run.length > 0 then some (pointer, pointer + run.length) else none

/-- Digit run to number, most significant first. -/
def digitsToNat (ds : List Char) : Nat :=
  ds.foldl (fun acc c => acc * 10 + (c.toNat - ('0').toNat)) 0

/-- The signed exponent value of the suffix `[-+]?[0-9]+` (used after the
`e`/`E` marker). -/
def parseExponentValue (cs : List Char) : Int :=
  match cs with
  | '+' :: r => (digitsToNat (r.takeWhile Char.isDigit) : Int)
  | '-' :: r => -(digitsToNat (r.takeWhile Char.isDigit) : Int)
  | _ => (digitsToNat (cs.takeWhile Char.isDigit) : Int)

/-- `parseFloat` applied to a span matched by the literal regular
expression: digits, optional fraction, optional exponent, valued exactly as
`mantissa * 10 ^ exponent10`. -/
def parseLiteralValue (cs : List Char) : DecimalValue :=
  let d1 := cs.takeWhile Char.isDigit
  let r1 := cs.drop d1.length
  let (mant, fracLen, rexp) :=
    match r1 with
    | '.' :: r2 =>
      let d2 := r2.takeWhile Char.isDigit
      ((digitsToNat (d1 ++ d2) : Int), d2.length, r2.drop d2.length)
    | _ => ((digitsToNat d1 : Int), 0, r1)
  let expVal : Int :=
    match rexp with
    | 'e' :: r => parseExponentValue r
    | 'E' :: r => parseExponentValue r
    | _ => 0
  { mantissa := mant, exponent10 := expVal - (fracLen : Int) }

/-- The entries of the processor's operator stack
(`Operator | CloseSymbol | OpenSymbol | "StartOfFunction"` in the source;
close symbols are never pushed).  `isOperator` of the source is true
exactly on the `op` constructor. -/
inductive StackEntry
  | op (operator : Operator)
  | openParen
  | startOfFunction
deriving DecidableEq, Repr

/-- A stack entry with its source span, as stored in
`OperatorProcessor.operatorStack`. -/
abbrev StackTriple := StackEntry × Nat × Nat

/-- From `operator_processor.ts`: `isOperator`. -/
def isOperator : StackEntry → Bool
  | .op _ => true
  | _ => false

/-- The value returned by JavaScript number comparison against the
precedence values, which include `Infinity` (used for unary operators). -/
inductive PrecValue
  | finite (n : Nat)
  | infinity
deriving DecidableEq, Repr

/-- JavaScript `>=` on precedence values. -/
def precGE : PrecValue → PrecValue → Bool
  | .infinity, _ => true
  | .finite _, .infinity => false
  | .finite a, .finite b => decide (b ≤ a)

/-- JavaScript `>` on precedence values. -/
def precGT : PrecValue → PrecValue → Bool
  | .infinity, .infinity => false
  | .infinity, .finite _ => true
  | .finite _, .infinity => false
  | .finite a, .finite b => decide (b < a)

/-- From `operator_processor.ts`: `getPrecedenceValue`.  Binary operators
map through `OperatorPrecedenceMap`; unary operators get `Infinity`
("Always process unary operators first"); the default case throws a plain
`Error` for function operators. -/
def getPrecedenceValue (operator : Operator) : Except ParseError PrecValue :=
  match operator with
  | .Binary _ _ precedence => .ok (.finite (OperatorPrecedenceMap precedence))
  | .Unary _ _ => .ok .infinity
  | .Function _ _ _ =>
    .error (.GenericError ("getPrecedenceValue has unhandled operator type"))

/-- From `operator_processor.ts`: the state of `OperatorProcessor`.  The
constructor argument `def` is the field `defn`; both stacks keep their top
at the head of the list. -/
structure OperatorProcessor where
  defn : ParserDef
  remainingFunctionOperands : Int
  typeAddedCurrentPass : Option TokenType
  typeAddedLastPass : Option TokenType
  isDone : Bool
  nodes : List MathASTNode
  operatorStack : List StackTriple
deriving Repr

/-- `new OperatorProcessor(def)`: the initial field values. -/
def initProcessor (defn : ParserDef) : OperatorProcessor :=
  { defn := defn
    remainingFunctionOperands := 0
    typeAddedCurrentPass := none
    typeAddedLastPass := none
    isDone := false
    nodes := []
    operatorStack := [] }

namespace OperatorProcessor

/-- From `operator_processor.ts`: `startPass`.  The `assert` call is the
no-op of `error_utils.ts`, so the done-check cannot raise. -/
def startPass (p : OperatorProcessor) : OperatorProcessor :=
  let _ := assert (!p.isDone) ("Cannot add operator ctors after process is done")
  { p with
    typeAddedLastPass := p.typeAddedCurrentPass
    typeAddedCurrentPass := none }

/-- From `operator_processor.ts`: `shouldProcessMinusAsUnary`. -/
def shouldProcessMinusAsUnary (p : OperatorProcessor) : Bool :=
  p.typeAddedLastPass != some TokenType.Literal &&
  p.typeAddedLastPass != some TokenType.closeParen

end OperatorProcessor

/-- From `operator_processor.ts`: the `while` loop of `done()`.  Each
remaining stack entry must be an operator (a residual marker is a
`MathSyntaxError`); reduction takes `arity` nodes off the node stack
(`splice(-arity, arity)`), checks the count, and pushes the reduced node. -/
def doneLoop (stack : List StackTriple) (nodes : List MathASTNode) :
    Except ParseError (List MathASTNode) :=
  match stack with
  | [] => .ok nodes
  | (entry, sourceStart, sourceEnd) :: rest =>
    match entry with
    | .op operator =>
      let arity := getArity operator
      let params := (nodes.take arity).reverse
      if params.length == arity then
        match makeOperatorNode operator params sourceStart sourceEnd with
        | .ok node => doneLoop rest (node :: nodes.drop arity)
        | .error e => .error e
      else .error .IncorrectArityError
    | _ => .error (.MathSyntaxError ("Math syntax error"))

/-- From `operator_processor.ts`: `done()` — drain the operator stack, then
require exactly one node. -/
def OperatorProcessor.done (p : OperatorProcessor) :
    Except ParseError MathASTNode :=
  match doneLoop p.operatorStack p.nodes with
  | .error e => .error e
  | .ok nodes =>
    match nodes with
    | [n] => .ok n
    | _ => .error (.MathSyntaxError ("Invalid equation"))

/-- The precedence test of the `while` loop of `addBinaryOperator`:
`(isLeftAssociative && top >= incoming) || top > incoming`. -/
def shouldPopForPrecedence (defn : ParserDef) (pTop pIncoming : PrecValue) :
    Bool :=
  (defn.isLeftAssociative && precGE pTop pIncoming) || precGT pTop pIncoming

/-- From `operator_processor.ts`: the pop-and-reduce `while` loop of
`addBinaryOperator`.  The top of the operator stack is reduced while it is
an operator passing the precedence test; `getPrecedenceValue` of a function
operator on top throws.  This loop performs no explicit params-length
check; `makeOperatorNode` raises the arity violation instead. -/
def binaryPopLoop (defn : ParserDef) (precedenceValue : PrecValue)
    (stack : List StackTriple) (nodes : List MathASTNode) :
    Except ParseError (List StackTriple × List MathASTNode) :=
  match stack with
  | (StackEntry.op lastOperator, sourceStart, sourceEnd) :: rest =>
    match getPrecedenceValue lastOperator with
    | .error e => .error e
    | .ok pTop =>
      if shouldPopForPrecedence defn pTop precedenceValue then
        let arity := getArity lastOperator
        let params := (nodes.take arity).reverse
        match makeOperatorNode lastOperator params sourceStart sourceEnd with
        | .ok node => binaryPopLoop defn precedenceValue rest
            (node :: nodes.drop arity)
        | .error e => .error e
      else .ok (stack, nodes)
  | _ => .ok (stack, nodes)

namespace OperatorProcessor

/-- From `operator_processor.ts`: `addBinaryOperator` (the pass type is
recorded unless the call is silent — silent calls implement implicit
multiplication), then the pop loop runs and the operator is pushed. -/
def addBinaryOperator (p : OperatorProcessor) (operator : Operator)
    (isSilent : Bool) (sourceStart sourceEnd : Nat) :
    Except ParseError OperatorProcessor :=
  let p :=
    if isSilent then p
    else { p with typeAddedCurrentPass := some TokenType.BinaryOperator }
  match getPrecedenceValue operator with
  | .error e => .error e
  | .ok precedenceValue =>
    match binaryPopLoop p.defn precedenceValue p.operatorStack p.nodes with
    | .error e => .error e
    | .ok (stack, nodes) =>
      .ok { p with
        operatorStack := (StackEntry.op operator, sourceStart, sourceEnd) :: stack
        nodes := nodes }

/-- From `operator_processor.ts`: the `leftTypes` list of
`maybeImplicitMultiply`. -/
def leftTypes : List (Option TokenType) :=
  [some TokenType.closeParen, some TokenType.Variable, some TokenType.Literal]

/-- From `operator_processor.ts`: the `rightTypes` list of
`maybeImplicitMultiply`. -/
def rightTypes : List (Option TokenType) :=
  [some TokenType.openParen, some TokenType.UnaryOperator,
   some TokenType.FunctionOperator, some TokenType.Literal,
   some TokenType.Variable]

/-- From `operator_processor.ts`: `maybeImplicitMultiply` — a silent
product reduction when the previous pass added a left-type token and the
current pass adds a right-type token, with a collapsed span. -/
def maybeImplicitMultiply (p : OperatorProcessor) (sourceStart : Nat) :
    Except ParseError OperatorProcessor :=
  if p.defn.implicitMultiply && leftTypes.contains p.typeAddedLastPass &&
      rightTypes.contains p.typeAddedCurrentPass then
    p.addBinaryOperator CoreOperators.prod true sourceStart sourceStart
  else .ok p

/-- From `operator_processor.ts`: `addVariable`. -/
def addVariable (p : OperatorProcessor) (v : String)
    (sourceStart sourceEnd : Nat) : Except ParseError OperatorProcessor :=
  let p := { p with typeAddedCurrentPass := some TokenType.Variable }
  match p.maybeImplicitMultiply sourceStart with
  | .error e => .error e
  | .ok p =>
    .ok { p with nodes := makeVariableNode v sourceStart sourceEnd :: p.nodes }

/-- From `operator_processor.ts`: `addLiteral`. -/
def addLiteral (p : OperatorProcessor) (literal : DecimalValue)
    (sourceStart sourceEnd : Nat) : Except ParseError OperatorProcessor :=
  let p := { p with typeAddedCurrentPass := some TokenType.Literal }
  match p.maybeImplicitMultiply sourceStart with
  | .error e => .error e
  | .ok p =>
    .ok { p with
      nodes := makeLiteralNode literal sourceStart sourceEnd :: p.nodes }

/-- From `operator_processor.ts`: `addUnaryOperator` — records the pass
type, possibly implicit-multiplies, then pushes the operator
unconditionally. -/
def addUnaryOperator (p : OperatorProcessor) (operator : Operator)
    (sourceStart sourceEnd : Nat) : Except ParseError OperatorProcessor :=
  let p := { p with typeAddedCurrentPass := some TokenType.UnaryOperator }
  match p.maybeImplicitMultiply sourceStart with
  | .error e => .error e
  | .ok p =>
    .ok { p with
      operatorStack :=
        (StackEntry.op operator, sourceStart, sourceEnd) :: p.operatorStack }

/-- From `operator_processor.ts`: `addFunctionOperator` — pushes the
function operator followed by the `StartOfFunction` marker and records the
expected operand count. -/
def addFunctionOperator (p : OperatorProcessor) (operator : Operator)
    (sourceStart sourceEnd : Nat) : Except ParseError OperatorProcessor :=
  let p := { p with typeAddedCurrentPass := some TokenType.FunctionOperator }
  match p.maybeImplicitMultiply sourceStart with
  | .error e => .error e
  | .ok p =>
    .ok { p with
      operatorStack :=
        (StackEntry.startOfFunction, sourceStart, sourceEnd) ::
        (StackEntry.op operator, sourceStart, sourceEnd) :: p.operatorStack
      remainingFunctionOperands := (getArity operator : Int) }

/-- From `operator_processor.ts`: `addOperator` — dispatch on the operator
kind. -/
def addOperator (p : OperatorProcessor) (operator : Operator)
    (sourceStart sourceEnd : Nat) : Except ParseError OperatorProcessor :=
  match operator with
  | .Unary _ _ => p.addUnaryOperator operator sourceStart sourceEnd
  | .Binary _ _ _ => p.addBinaryOperator operator false sourceStart sourceEnd
  | .Function _ _ _ => p.addFunctionOperator operator sourceStart sourceEnd

/-- From `operator_processor.ts`: `addOpenParens`. -/
def addOpenParens (p : OperatorProcessor) (sourceStart sourceEnd : Nat) :
    Except ParseError OperatorProcessor :=
  let p := { p with typeAddedCurrentPass := some TokenType.openParen }
  match p.maybeImplicitMultiply sourceStart with
  | .error e => .error e
  | .ok p =>
    .ok { p with
      operatorStack :=
        (StackEntry.openParen, sourceStart, sourceEnd) :: p.operatorStack }

end OperatorProcessor

/-- From `operator_processor.ts`: the pop-until-marker `while` loop of
`addCloseSymbol`.  Operators are reduced unconditionally (with the explicit
params-length check of the source); the entry that stops the loop has been
popped off and is returned (`none` when the stack ran out). -/
def closePopLoop (stack : List StackTriple) (nodes : List MathASTNode) :
    Except ParseError (Option StackTriple × List StackTriple × List MathASTNode) :=
  match stack with
  | [] => .ok (none, [], nodes)
  | (entry, sourceStart, sourceEnd) :: rest =>
    match entry with
    | .op operator =>
      let arity := getArity operator
      let params := (nodes.take arity).reverse
      if params.length == arity then
        match makeOperatorNode operator params sourceStart sourceEnd with
        | .ok node => closePopLoop rest (node :: nodes.drop arity)
        | .error e => .error e
      else .error .IncorrectArityError
    | _ => .ok (some (entry, sourceStart, sourceEnd), rest, nodes)

/-- From `operator_processor.ts`: `addCloseSymbol`.  A comma decrements the
expected-operand counter; the loop pops down to (and including) the first
marker; when the popped marker is `StartOfFunction` and the symbol is `)`
the function operator beneath it is reduced with exactly its arity. -/
def OperatorProcessor.addCloseSymbol (p : OperatorProcessor)
    (closeSymbol : CloseSymbol) (sourceStart sourceEnd : Nat) :
    Except ParseError OperatorProcessor :=
  let p := { p with typeAddedCurrentPass := some closeSymbol.toTokenType }
  match p.maybeImplicitMultiply sourceStart with
  | .error e => .error e
  | .ok p =>
    let isComma := closeSymbol == CloseSymbol.comma
    let p :=
      if isComma then
        { p with remainingFunctionOperands := p.remainingFunctionOperands - 1 }
      else p
    match closePopLoop p.operatorStack p.nodes with
    | .error e => .error e
    | .ok (triple?, stack, nodes) =>
      match triple? with
      | some (StackEntry.startOfFunction, _, _) =>
        if !isComma then
          let p := { p with
            remainingFunctionOperands := p.remainingFunctionOperands - 1 }
          match stack with
          | (StackEntry.op functionOperator, fs, fe) :: stack2 =>
            match functionOperator with
            | .Function _ _ _ =>
              let arity := getArity functionOperator
              let params := (nodes.take arity).reverse
              if params.length == arity then
                match makeOperatorNode functionOperator params fs fe with
                | .ok node =>
                  .ok { p with
                    operatorStack := stack2
                    nodes := node :: nodes.drop arity }
                | .error e => .error e
              else .error .IncorrectArityError
            | _ => .error (.MathSyntaxError ("Math syntax error"))
          | _ => .error (.MathSyntaxError ("Math syntax error"))
        else .ok { p with operatorStack := stack, nodes := nodes }
      | _ => .ok { p with operatorStack := stack, nodes := nodes }

/-- From `parser.ts`: the per-instance state of `Parser` — the merged
configuration and the three operator scan lists (`def` is `defn`). -/
structure Parser where
  defn : ParserDef
  unaryOperators : List Operator
  binaryOperators : List Operator
  functionOperators : List Operator
deriving Repr

/-- From `parser.ts`: the constructor's partition of
`Object.values(CoreOperators)` into the three scan lists.  The unary minus
is treated as a special case and excluded from the unary scan list. -/
def Parser.new (defn : ParserDef) : Parser :=
  let lists :=
    CoreOperatorsValues.foldl
      (fun (acc : List Operator × List Operator × List Operator) operator =>
        let (binaryOperators, unaryOperators, functionOperators) := acc
        match operator with
        | .Binary _ _ _ =>
          (binaryOperators ++ [operator], unaryOperators, functionOperators)
        | .Unary _ _ =>
          if operator = CoreOperators.unaryMinus then acc
          else (binaryOperators, unaryOperators ++ [operator], functionOperators)
        | .Function _ _ _ =>
          (binaryOperators, unaryOperators, functionOperators ++ [operator]))
      ([], [], [])
  { defn := defn
    binaryOperators := lists.1
    unaryOperators := lists.2.1
    functionOperators := lists.2.2 }

/-- `new Parser()` with the default configuration. -/
def defaultParser : Parser := Parser.new DefaultParserDef

/-- From `parser.ts`: `Parser.addOperator` — registration appends to the
appropriate kind list (no uniqueness check). -/
def Parser.addOperator (P : Parser) (operator : Operator) : Parser :=
  match operator with
  | .Function _ _ _ =>
    { P with functionOperators := P.functionOperators ++ [operator] }
  | .Binary _ _ _ =>
    { P with binaryOperators := P.binaryOperators ++ [operator] }
  | .Unary _ _ =>
    { P with unaryOperators := P.unaryOperators ++ [operator] }

/-- The `for`-loops of `parse` over a scan list: the first operator in
registration order whose claim succeeds, with its claim token. -/
def findOperatorClaim (operators : List Operator) (text : List Char)
    (pointer : Nat) : Option (Operator × Nat × Nat) :=
  match operators with
  | [] => none
  | operator :: rest =>
    match getOperatorClaimToken operator text pointer with
    | some (s, e) => some (operator, s, e)
    | none => findOperatorClaim rest text pointer

/-- The tail of one scan-loop iteration of `parse` (`parser.ts`) from the
binary-operator scan on: registered binary operators, registered function
operators (which require `(` to follow the claimed symbol immediately),
variables, and otherwise the unexpected-token syntax error. -/
def parseTokenTail (P : Parser) (text : List Char) (pointer : Nat)
    (proc : OperatorProcessor) :
    Except ParseError (Nat × OperatorProcessor) :=
  match findOperatorClaim P.binaryOperators text pointer with
  | some (operator, s, e) =>
    (proc.addOperator operator s e).map (fun p => (e, p))
  | none =>
  match findOperatorClaim P.functionOperators text pointer with
  | some (operator, s, e) =>
    match proc.addOperator operator s e with
    | .error err => .error err
    | .ok p =>
      if charAt text e == some '(' then .ok (e + 1, p)
      else .error (.MathSyntaxError ("Expected \x27(\x27 after function operator"))
  | none =>
  match getVariableClaimToken P.defn.validVariables text pointer with
  | some (s, e) =>
    let v := String.mk ((text.drop s).take (e - s))
    (proc.addVariable v s e).map (fun p => (e, p))
  | none =>
    .error (.MathSyntaxError
      (String.append ("Unexpected token: ")
        (match charAt text pointer with
         | some c => String.mk [c]
         | none => "")))

/-- One non-whitespace iteration of the scan loop of `parse`
(`parser.ts`): `startPass`, then the claim attempts in priority order —
literal, open paren, close symbol, registered unary operators, the special
unary minus gated by `shouldProcessMinusAsUnary`, and then the tail
(binary operators, function operators, variables, unexpected token).  On
success it returns the advanced cursor and the updated processor. -/
def parseToken (P : Parser) (text : List Char) (pointer : Nat)
    (proc : OperatorProcessor) :
    Except ParseError (Nat × OperatorProcessor) :=
  let proc := proc.startPass
  match getLiteralClaimToken text pointer with
  | some (s, e) =>
    let literal := parseLiteralValue ((text.drop s).take (e - s))
    (proc.addLiteral literal s e).map (fun p => (e, p))
  | none =>
  if charAt text pointer == some '(' then
    (proc.addOpenParens pointer (pointer + 1)).map (fun p => (pointer + 1, p))
  else if charAt text pointer == some ')' then
    (proc.addCloseSymbol CloseSymbol.closeParen pointer (pointer + 1)).map
      (fun p => (pointer + 1, p))
  else if charAt text pointer == some ',' then
    (proc.addCloseSymbol CloseSymbol.comma pointer (pointer + 1)).map
      (fun p => (pointer + 1, p))
  else
  match findOperatorClaim P.unaryOperators text pointer with
  | some (operator, s, e) =>
    (proc.addOperator operator s e).map (fun p => (e, p))
  | none =>
  match getOperatorClaimToken CoreOperators.unaryMinus text pointer with
  | some (s, e) =>
    if proc.shouldProcessMinusAsUnary then
      (proc.addOperator CoreOperators.unaryMinus s e).map (fun p => (e, p))
    else
      parseTokenTail P text pointer proc
  | none => parseTokenTail P text pointer proc

/-- The outcome of a fuelled run of the driver loop: a root node, a raised
error, or exhaustion of the fuel (the marker for a loop that did not
finish within the given number of iterations). -/
inductive ParseOutcome
  | ok (node : MathASTNode)
  | error (err : ParseError)
  | outOfFuel
deriving Repr

/-- From `parser.ts`: the `while (pointer < text.length)` loop of `parse`.
A whitespace claim advances the cursor without a processor pass; otherwise
one token is processed; at end of input the processor finalizes. -/
def parseLoop (P : Parser) (text : List Char) :
    Nat → Nat → OperatorProcessor → ParseOutcome
  | 0, _, _ => .outOfFuel
  | fuel + 1, pointer, proc =>
    if pointer < text.length then
      match getWhitespaceClaimToken text pointer with
      | some (_, e) => parseLoop P text fuel e proc
      | none =>
        match parseToken P text pointer proc with
        | .ok (e, proc') => parseLoop P text fuel e proc'
        | .error err => .error err
    else
      match proc.done with
      | .ok node => .ok node
      | .error err => .error err

/-- From `parser.ts`: `Parser.parse` — a fresh processor, the scan loop
from cursor `0`, finalization at end of input.  The fuel `length + 1`
suffices for every parser whose operator symbols are non-empty (each
iteration then strictly advances the cursor). -/
def Parser.parse (P : Parser) (text : String) : ParseOutcome :=
  parseLoop P text.toList (text.length + 1) 0 (initProcessor P.defn)

/-!
## Claim theorems
-/

/-- C5: with the default operator catalogue, `parse "1 * 2 + 3"` returns a
Sum node whose left child is the Product of literals 1 and 2 and whose
right child is literal 3 (`(1*2)+3`), and `parse "1 + 2 ^ 3"` returns a
Sum node whose right child is the Exponent of 2 and 3 (`1+(2^3)`):
exponent (High) binds tighter than product/quotient (Medium), which bind
tighter than sum/difference (Normal). -/
theorem C5_default_precedence :
    defaultParser.parse ("1 * 2 + 3") =
      .ok (.BinaryOperator CoreOperators.sum
        (.BinaryOperator CoreOperators.prod
          (.Literal ⟨1, 0⟩ 0 1) (.Literal ⟨2, 0⟩ 4 5) 2 3)
        (.Literal ⟨3, 0⟩ 8 9) 6 7) ∧
    defaultParser.parse ("1 + 2 ^ 3") =
      .ok (.BinaryOperator CoreOperators.sum
        (.Literal ⟨1, 0⟩ 0 1)
        (.BinaryOperator CoreOperators.exp
          (.Literal ⟨2, 0⟩ 4 5) (.Literal ⟨3, 0⟩ 8 9) 6 7) 2 3) ∧
    OperatorPrecedenceMap .High > OperatorPrecedenceMap .Medium ∧
    OperatorPrecedenceMap .Medium > OperatorPrecedenceMap .Normal :=
  ⟨rfl, rfl, by decide, by decide⟩

/-- C7: with `implicitMultiply` enabled (the default), `parse "3x"` equals
`3 * x`, `parse "x^2y^2"` equals `(x^2) * (y^2)`, `parse "(1)(2)"` equals
`1 * 2`; with `implicitMultiply` set to false, `parse "xy"` raises a
syntax error. -/
theorem C7_implicit_multiply :
    defaultParser.parse ("3x") =
      .ok (.BinaryOperator CoreOperators.prod
        (.Literal ⟨3, 0⟩ 0 1) (.Variable ("x") 1 2) 1 1) ∧
    defaultParser.parse ("x^2y^2") =
      .ok (.BinaryOperator CoreOperators.prod
        (.BinaryOperator CoreOperators.exp
          (.Variable ("x") 0 1) (.Literal ⟨2, 0⟩ 2 3) 1 2)
        (.BinaryOperator CoreOperators.exp
          (.Variable ("y") 3 4) (.Literal ⟨2, 0⟩ 5 6) 4 5) 3 3) ∧
    defaultParser.parse ("(1)(2)") =
      .ok (.BinaryOperator CoreOperators.prod
        (.Literal ⟨1, 0⟩ 1 2) (.Literal ⟨2, 0⟩ 4 5) 3 3) ∧
    (Parser.new { DefaultParserDef with implicitMultiply := false }).parse
        ("xy") =
      .error (.MathSyntaxError ("Invalid equation")) :=
  ⟨rfl, rfl, rfl, rfl⟩

/-- C2, counterexample: the input `"1)"` has a close symbol with no
matching open marker on the operator stack, yet `parse` does not raise a
syntax error — it returns the literal-1 tree.  (In `addCloseSymbol`, an
empty operator stack ends the pop loop with `triple === undefined` and the
function returns without throwing.) -/
theorem C2_counterexample :
    defaultParser.parse ("1)") = .ok (.Literal ⟨1, 0⟩ 0 1) := rfl

/-- C2, amended: a close symbol arriving when the operator stack is empty
(no matching open-parenthesis marker and no function-start marker left) is
silently ignored: `addCloseSymbol ")"` only records the pass token type
and leaves the node stack, the operator stack and the operand counter
unchanged, and `parse "1)"` therefore returns a tree instead of raising. -/
theorem C2_close_symbol_on_empty_stack (defn : ParserDef) (rem : Int)
    (cur last : Option TokenType) (dn : Bool) (nodes : List MathASTNode)
    (sourceStart sourceEnd : Nat) :
    OperatorProcessor.addCloseSymbol
        ⟨defn, rem, cur, last, dn, nodes, []⟩ CloseSymbol.closeParen
        sourceStart sourceEnd =
      .ok ⟨defn, rem, some TokenType.closeParen, last, dn, nodes, []⟩ := by
  simp [OperatorProcessor.addCloseSymbol, OperatorProcessor.maybeImplicitMultiply,
    OperatorProcessor.rightTypes, CloseSymbol.toTokenType, closePopLoop]

/-- C9, counterexample: `parse "1 *"` (binary operator with a missing
right operand) raises `IncorrectArityError` — the arity-violation error of
the final reduction — not a `MathSyntaxError`; the spec's taxonomy
distinguishes the two classes. -/
theorem C9_counterexample :
    defaultParser.parse ("1 *") = .error .IncorrectArityError := rfl

/-- C9, amended: the error for `"1 *"` is raised at finalization: `done()`
on the processor state reached after the two tokens (node stack `[1]`,
operator stack `[*]`) drains the stack, finds one operand for the
two-place product and raises `IncorrectArityError`. -/
theorem C9_missing_operand_error_at_done :
    OperatorProcessor.done
        ⟨DefaultParserDef, 0, some TokenType.BinaryOperator,
         some TokenType.Literal, false, [.Literal ⟨1, 0⟩ 0 1],
         [(StackEntry.op CoreOperators.prod, 2, 3)]⟩ =
      .error .IncorrectArityError := rfl

/-- C1, counterexample: a pending unary operator on the operator stack is
reduced by an incoming binary operator's precedence comparison.  Concrete
state: after `"$1"` (registered unary `$` on the stack, literal 1 on the
node stack), `addOperator` on the binary `+` pops and reduces the `$` —
the resulting operator stack holds only the `+`, and the node stack holds
the reduced `$`-node — contradicting the claim that every pending unary
operator is left unreduced. -/
theorem C1_counterexample :
    OperatorProcessor.addOperator
        ⟨DefaultParserDef, 0, none, some TokenType.Literal, false,
         [.Literal ⟨1, 0⟩ 1 2],
         [(StackEntry.op (.Unary ("Dollar") ("$")), 0, 1)]⟩
        CoreOperators.sum 3 4 =
      .ok ⟨DefaultParserDef, 0, some TokenType.BinaryOperator,
        some TokenType.Literal, false,
        [.UnaryOperator (.Unary ("Dollar") ("$")) (.Literal ⟨1, 0⟩ 1 2) 0 1],
        [(StackEntry.op CoreOperators.sum, 3, 4)]⟩ := rfl

/-- C1, amended: a unary operator on top of the operator stack is popped
and reduced by an incoming binary operator's precedence comparison
whenever an operand is available: `getPrecedenceValue` gives unary
operators `Infinity`, which passes the precedence test against every
binary operator under either associativity, so the pop loop reduces the
unary operator and continues on the remaining stack.  (Unary operators
are additionally reduced by closing symbols and end-of-input, as the claim
says.) -/
theorem C1_binary_reduces_pending_unary (defn : ParserDef) (k : Nat)
    (nm sym : String) (us ue : Nat) (rest : List StackTriple)
    (n : MathASTNode) (ns : List MathASTNode) :
    binaryPopLoop defn (.finite k)
        ((StackEntry.op (.Unary nm sym), us, ue) :: rest) (n :: ns) =
      binaryPopLoop defn (.finite k) rest
        (.UnaryOperator (.Unary nm sym) n us ue :: ns) := by
  simp [binaryPopLoop, getPrecedenceValue, shouldPopForPrecedence, precGE,
    precGT, getArity, makeOperatorNode]

/-- C3: the claim states that `assert` raises when its flag is false and
that the `startPass` done-check therefore raises; in the code `assert` has
an empty body, so it returns `()` for a false flag, and `startPass` on a
processor with `isDone = true` returns normally (the check is a no-op).
The claim describes the intended behaviour (the spec calls the no-op
degradation a must-not-replicate defect), so this is a code bug, recorded
by evaluating the code at the failing inputs. -/
theorem C3_assert_is_noop (flag : Bool) (msg : String) (defn : ParserDef)
    (rem : Int) (cur last : Option TokenType) (nodes : List MathASTNode)
    (stack : List StackTriple) :
    assert flag msg = () ∧
    assert false ("Cannot add operator ctors after process is done") = () ∧
    OperatorProcessor.startPass ⟨defn, rem, cur, last, true, nodes, stack⟩ =
      ⟨defn, rem, none, cur, true, nodes, stack⟩ :=
  ⟨rfl, rfl, rfl⟩

/-- C4, counterexample: inside a function argument list (state after
`"max(1"` for a registered two-place function `max`), `addCloseSymbol ","`
decrements the expected-operand counter but pops the function-start marker
off the operator stack without restoring it: the resulting stack holds
only the function operator — the marker is not left in place, contradicting
the claim. -/
theorem C4_counterexample :
    OperatorProcessor.addCloseSymbol
        ⟨DefaultParserDef, 2, none, some TokenType.Literal, false,
         [.Literal ⟨1, 0⟩ 4 5],
         [(StackEntry.startOfFunction, 0, 3),
          (StackEntry.op (.Function 2 ("Maximum") ("max")), 0, 3)]⟩
        CloseSymbol.comma 5 6 =
      .ok ⟨DefaultParserDef, 1, some TokenType.comma, some TokenType.Literal,
        false, [.Literal ⟨1, 0⟩ 4 5],
        [(StackEntry.op (.Function 2 ("Maximum") ("max")), 0, 3)]⟩ := rfl

/-- C6: `parse "1 + 2 + 3"` under the default left-associative
configuration returns `(1+2)+3`; with `isLeftAssociative` false it returns
`1+(2+3)`; and the pop condition of `addBinaryOperator` is exactly
"greater or equal" under left associativity and "strictly greater" under
right associativity. -/
theorem C6_associativity :
    defaultParser.parse ("1 + 2 + 3") =
      .ok (.BinaryOperator CoreOperators.sum
        (.BinaryOperator CoreOperators.sum
          (.Literal ⟨1, 0⟩ 0 1) (.Literal ⟨2, 0⟩ 4 5) 2 3)
        (.Literal ⟨3, 0⟩ 8 9) 6 7) ∧
    (Parser.new { DefaultParserDef with isLeftAssociative := false }).parse
        ("1 + 2 + 3") =
      .ok (.BinaryOperator CoreOperators.sum
        (.Literal ⟨1, 0⟩ 0 1)
        (.BinaryOperator CoreOperators.sum
          (.Literal ⟨2, 0⟩ 4 5) (.Literal ⟨3, 0⟩ 8 9) 6 7) 2 3) ∧
    (∀ (defn : ParserDef) (pTop pIncoming : PrecValue),
      shouldPopForPrecedence defn pTop pIncoming =
        if defn.isLeftAssociative then precGE pTop pIncoming
        else precGT pTop pIncoming) := by
  refine ⟨rfl, rfl, ?_⟩
  intro defn pTop pIncoming
  unfold shouldPopForPrecedence
  cases defn.isLeftAssociative <;> simp
  cases pTop <;> cases pIncoming <;> simp [precGE, precGT]
  intro h
  omega

/-- C4, amended: `addCloseSymbol ","` inside a function argument list
decrements the expected-operand counter and reduces the operators pending
between the function-start marker and the comma, but it pops the
function-start marker off the operator stack without restoring it (the
marker is not left in place); subsequent arguments accumulate against the
bare function-operator entry that remains below it.  Stated for a marker
on top of the stack and for one pending binary operator above the
marker. -/
theorem C4_comma_pops_function_marker (defn : ParserDef) (rem : Int)
    (cur last : Option TokenType) (dn : Bool) (nodes : List MathASTNode)
    (ms me sourceStart sourceEnd : Nat) (rest : List StackTriple)
    (bn bs : String) (bp : OperatorPrecedence) (os oe : Nat)
    (n1 n2 : MathASTNode) (ns : List MathASTNode) :
    OperatorProcessor.addCloseSymbol
        ⟨defn, rem, cur, last, dn, nodes,
         (StackEntry.startOfFunction, ms, me) :: rest⟩
        CloseSymbol.comma sourceStart sourceEnd =
      .ok ⟨defn, rem - 1, some TokenType.comma, last, dn, nodes, rest⟩ ∧
    OperatorProcessor.addCloseSymbol
        ⟨defn, rem, cur, last, dn, n2 :: n1 :: ns,
         (StackEntry.op (.Binary bn bs bp), os, oe) ::
           (StackEntry.startOfFunction, ms, me) :: rest⟩
        CloseSymbol.comma sourceStart sourceEnd =
      .ok ⟨defn, rem - 1, some TokenType.comma, last, dn,
        .BinaryOperator (.Binary bn bs bp) n1 n2 os oe :: ns, rest⟩ := by
  constructor <;>
    simp [OperatorProcessor.addCloseSymbol,
      OperatorProcessor.maybeImplicitMultiply, OperatorProcessor.rightTypes,
      CloseSymbol.toTokenType, closePopLoop, getArity, makeOperatorNode]

/-- C8: `shouldProcessMinusAsUnary` returns true exactly when the token
added on the immediately preceding pass was neither a literal nor a
closing parenthesis (so true at start of input, after another operator,
after an open paren and after a variable); and the default-parser driver
dispatches a `-` character through this predicate — as the built-in unary
minus when it is true and as the registered binary subtraction operator
(`CoreOperators.diff`) otherwise. -/
theorem C8_minus_disambiguation :
    (∀ p : OperatorProcessor, p.shouldProcessMinusAsUnary = true ↔
      (p.typeAddedLastPass ≠ some TokenType.Literal ∧
       p.typeAddedLastPass ≠ some TokenType.closeParen)) ∧
    (∀ (text : List Char) (pointer : Nat) (rest : List Char)
      (proc : OperatorProcessor), text.drop pointer = '-' :: rest →
      parseToken defaultParser text pointer proc =
        (if proc.startPass.shouldProcessMinusAsUnary then
          (proc.startPass.addOperator CoreOperators.unaryMinus pointer
            (pointer + 1)).map (fun p => (pointer + 1, p))
        else
          (proc.startPass.addOperator CoreOperators.diff pointer
            (pointer + 1)).map (fun p => (pointer + 1, p)))) := by
  constructor
  · intro p
    simp [OperatorProcessor.shouldProcessMinusAsUnary]
  · intro text pointer rest proc hdrop
    have hlit : getLiteralClaimToken text pointer = none := by
      simp only [getLiteralClaimToken, hdrop]
      rfl
    have hchar : charAt text pointer = some '-' := by
      simp only [charAt, hdrop]
      rfl
    have hmin : getOperatorClaimToken CoreOperators.unaryMinus text pointer =
        some (pointer, pointer + 1) := by
      simp only [getOperatorClaimToken, CoreOperators.unaryMinus, hdrop]
      simp [String.toList, List.isPrefixOf, show ("-").length = 1 from rfl]
    have hdiff : findOperatorClaim defaultParser.binaryOperators text pointer =
        some (CoreOperators.diff, pointer, pointer + 1) := by
      show findOperatorClaim
        [CoreOperators.diff, CoreOperators.exp, CoreOperators.prod,
         CoreOperators.quot, CoreOperators.sum] text pointer = _
      simp only [findOperatorClaim, getOperatorClaimToken, CoreOperators.diff,
        hdrop]
      simp [String.toList, List.isPrefixOf, show ("-").length = 1 from rfl]
    have huna : findOperatorClaim defaultParser.unaryOperators text pointer =
        none := rfl
    rw [parseToken, hlit, hchar, huna, hmin]
    by_cases hu : proc.startPass.shouldProcessMinusAsUnary <;>
      simp [hu, parseTokenTail, hdiff]

/-- Witness for C8: at the concrete input `"-1"` (cursor 0, fresh
processor, where the predicate is true) the dispatch equation instantiates
to the unary-minus branch. -/
theorem C8_minus_disambiguation_witness :
    parseToken defaultParser ['-', '1'] 0 (initProcessor DefaultParserDef) =
      ((initProcessor DefaultParserDef).startPass.addOperator
        CoreOperators.unaryMinus 0 1).map (fun p => (1, p)) := by
  have h := C8_minus_disambiguation.2 ['-', '1'] 0 ['1']
    (initProcessor DefaultParserDef) rfl
  rw [h]
  rfl

/-!
## Cursor-advancement lemmas for the driver loop (claim C10)
-/

/-- Inversion of `Except.map` at a successful result. -/
theorem exceptMap_ok {ε α β : Type} {f : α → β} {x : Except ε α} {b : β}
    (h : x.map f = .ok b) : ∃ a, x = .ok a ∧ f a = b := by
  cases x with
  | ok a =>
    refine ⟨a, rfl, ?_⟩
    simpa [Except.map] using h
  | error e => simp [Except.map] at h

/-- A successful literal match consumes at least one character. -/
theorem matchLiteral_pos {cs : List Char} {len : Nat}
    (h : matchLiteral cs = some len) : 0 < len := by
  unfold matchLiteral at h
  dsimp only at h
  split at h
  · split at h
    · injection h with h
      omega
    · split at h
      · injection h with h
        omega
      · exact absurd h (by simp)
  · split at h
    · injection h with h
      omega
    · exact absurd h (by simp)

/-- A successful literal claim moves the cursor strictly forward. -/
theorem getLiteralClaimToken_advances {text : List Char} {pointer s e : Nat}
    (h : getLiteralClaimToken text pointer = some (s, e)) : pointer < e := by
  unfold getLiteralClaimToken at h
  split at h
  case h_1 len heq =>
    injection h with h
    have := matchLiteral_pos heq
    cases h
    omega
  case h_2 => exact absurd h (by simp)

/-- A string different from `""` has positive length. -/
theorem string_length_pos_of_ne_empty {s : String} (h : s ≠ "") :
    0 < s.length := by
  cases s with
  | mk data =>
    cases data with
    | nil => exact absurd rfl h
    | cons c cs => simp [String.length]

/-- A successful operator claim for a non-empty symbol moves the cursor
strictly forward. -/
theorem getOperatorClaimToken_advances {operator : Operator}
    {text : List Char} {pointer s e : Nat}
    (hsym : operator.symbol ≠ "")
    (h : getOperatorClaimToken operator text pointer = some (s, e)) :
    pointer < e := by
  have hlen : 0 < operator.symbol.length := string_length_pos_of_ne_empty hsym
  unfold getOperatorClaimToken at h
  cases operator with
  | Unary name symbol =>
    dsimp only at h
    split at h
    · injection h with h
      cases h
      simp only [Operator.symbol] at hlen
      omega
    · exact absurd h (by simp)
  | Binary name symbol precedence =>
    dsimp only at h
    split at h
    · injection h with h
      cases h
      simp only [Operator.symbol] at hlen
      omega
    · exact absurd h (by simp)
  | Function arity name symbol =>
    dsimp only at h
    split at h
    · injection h with h
      cases h
      simp only [Operator.symbol] at hlen
      omega
    · exact absurd h (by simp)

/-- A successful operator claim never moves the cursor backwards. -/
theorem getOperatorClaimToken_end_le {operator : Operator}
    {text : List Char} {pointer s e : Nat}
    (h : getOperatorClaimToken operator text pointer = some (s, e)) :
    pointer ≤ e := by
  unfold getOperatorClaimToken at h
  cases operator <;> dsimp only at h <;> split at h <;>
    first
    | (injection h with h
       cases h
       omega)
    | exact absurd h (by simp)

/-- A successful variable claim moves the cursor strictly forward. -/
theorem getVariableClaimToken_advances {vv : Option (List String)}
    {text : List Char} {pointer s e : Nat}
    (h : getVariableClaimToken vv text pointer = some (s, e)) :
    pointer < e := by
  unfold getVariableClaimToken at h
  split at h
  · exact absurd h (by simp)
  · split at h
    · split at h
      · split at h
        · injection h with h
          cases h
          omega
        · exact absurd h (by simp)
      · injection h with h
        cases h
        omega
    · exact absurd h (by simp)

/-- A successful scan-list search returns a member of the list together
with its successful claim. -/
theorem findOperatorClaim_spec {operators : List Operator}
    {text : List Char} {pointer : Nat} {operator : Operator} {s e : Nat}
    (h : findOperatorClaim operators text pointer = some (operator, s, e)) :
    operator ∈ operators ∧
      getOperatorClaimToken operator text pointer = some (s, e) := by
  induction operators with
  | nil => simp [findOperatorClaim] at h
  | cons op rest ih =>
    rw [findOperatorClaim] at h
    rcases hop : getOperatorClaimToken op text pointer with _ | ⟨s1, e1⟩
    · rw [hop] at h
      obtain ⟨hmem, hclaim⟩ := ih h
      exact ⟨List.mem_cons_of_mem _ hmem, hclaim⟩
    · rw [hop] at h
      simp only [Option.some.injEq, Prod.mk.injEq] at h
      obtain ⟨h1, h2, h3⟩ := h
      subst h1
      subst h2
      subst h3
      exact ⟨List.mem_cons_self _ _, hop⟩

/-- The tail of a scan-loop iteration advances the cursor whenever it
succeeds, provided every registered binary operator has a non-empty
symbol. -/
theorem parseTokenTail_advances {P : Parser} {text : List Char}
    {pointer : Nat} {proc : OperatorProcessor} {e : Nat}
    {proc' : OperatorProcessor}
    (hsym : ∀ op ∈ P.binaryOperators, op.symbol ≠ "")
    (h : parseTokenTail P text pointer proc = .ok (e, proc')) :
    pointer < e := by
  rw [parseTokenTail] at h
  rcases hb : findOperatorClaim P.binaryOperators text pointer with _ | ⟨op, s1, e1⟩
  · rw [hb] at h
    dsimp only at h
    rcases hf : findOperatorClaim P.functionOperators text pointer with _ | ⟨fop, s2, e2⟩
    · rw [hf] at h
      dsimp only at h
      rcases hv : getVariableClaimToken P.defn.validVariables text pointer with _ | ⟨s3, e3⟩
      · rw [hv] at h
        exact absurd h (by simp)
      · rw [hv] at h
        dsimp only at h
        obtain ⟨p1, _, hfe⟩ := exceptMap_ok h
        simp only [Prod.mk.injEq] at hfe
        obtain ⟨he, _⟩ := hfe
        subst he
        exact getVariableClaimToken_advances hv
    · rw [hf] at h
      dsimp only at h
      obtain ⟨_, hclaim⟩ := findOperatorClaim_spec hf
      cases ha : proc.addOperator fop s2 e2 with
      | ok p =>
        rw [ha] at h
        dsimp only at h
        split at h
        · simp only [Except.ok.injEq, Prod.mk.injEq] at h
          obtain ⟨he, _⟩ := h
          subst he
          have := getOperatorClaimToken_end_le hclaim
          omega
        · exact absurd h (by simp)
      | error err =>
        rw [ha] at h
        exact absurd h (by simp)
  · rw [hb] at h
    dsimp only at h
    obtain ⟨hmem, hclaim⟩ := findOperatorClaim_spec hb
    obtain ⟨p1, _, hfe⟩ := exceptMap_ok h
    simp only [Prod.mk.injEq] at hfe
    obtain ⟨he, _⟩ := hfe
    subst he
    exact getOperatorClaimToken_advances (hsym op hmem) hclaim

/-- One scan-loop iteration advances the cursor whenever it succeeds,
provided every registered unary and binary operator has a non-empty
symbol. -/
theorem parseToken_advances {P : Parser} {text : List Char}
    {pointer : Nat} {proc : OperatorProcessor} {e : Nat}
    {proc' : OperatorProcessor}
    (hsymU : ∀ op ∈ P.unaryOperators, op.symbol ≠ "")
    (hsymB : ∀ op ∈ P.binaryOperators, op.symbol ≠ "")
    (h : parseToken P text pointer proc = .ok (e, proc')) :
    pointer < e := by
  rw [parseToken] at h
  rcases hl : getLiteralClaimToken text pointer with _ | ⟨s0, e0⟩
  · rw [hl] at h
    dsimp only at h
    split at h
    · obtain ⟨p1, _, hfe⟩ := exceptMap_ok h
      simp only [Prod.mk.injEq] at hfe
      obtain ⟨he, _⟩ := hfe
      omega
    · split at h
      · obtain ⟨p1, _, hfe⟩ := exceptMap_ok h
        simp only [Prod.mk.injEq] at hfe
        obtain ⟨he, _⟩ := hfe
        omega
      · split at h
        · obtain ⟨p1, _, hfe⟩ := exceptMap_ok h
          simp only [Prod.mk.injEq] at hfe
          obtain ⟨he, _⟩ := hfe
          omega
        · rcases hu : findOperatorClaim P.unaryOperators text pointer with _ | ⟨op, s1, e1⟩
          · rw [hu] at h
            dsimp only at h
            rcases hm : getOperatorClaimToken CoreOperators.unaryMinus text pointer with _ | ⟨s2, e2⟩
            · rw [hm] at h
              dsimp only at h
              exact parseTokenTail_advances hsymB h
            · rw [hm] at h
              dsimp only at h
              split at h
              · obtain ⟨p1, _, hfe⟩ := exceptMap_ok h
                simp only [Prod.mk.injEq] at hfe
                obtain ⟨he, _⟩ := hfe
                subst he
                exact getOperatorClaimToken_advances (by decide) hm
              · exact parseTokenTail_advances hsymB h
          · rw [hu] at h
            dsimp only at h
            obtain ⟨hmem, hclaim⟩ := findOperatorClaim_spec hu
            obtain ⟨p1, _, hfe⟩ := exceptMap_ok h
            simp only [Prod.mk.injEq] at hfe
            obtain ⟨he, _⟩ := hfe
            subst he
            exact getOperatorClaimToken_advances (hsymU op hmem) hclaim
  · rw [hl] at h
    dsimp only at h
    obtain ⟨p1, _, hfe⟩ := exceptMap_ok h
    simp only [Prod.mk.injEq] at hfe
    obtain ⟨he, _⟩ := hfe
    subst he
    exact getLiteralClaimToken_advances hl

/-- A successful whitespace claim moves the cursor strictly forward. -/
theorem getWhitespaceClaimToken_advances {text : List Char}
    {pointer s e : Nat}
    (h : getWhitespaceClaimToken text pointer = some (s, e)) :
    pointer < e := by
  unfold getWhitespaceClaimToken at h
  dsimp only at h
  split at h
  · injection h with h
    cases h
    omega
  · exact absurd h (by simp)

/-- With non-empty unary and binary operator symbols, the driver loop
finishes (with a tree or an error) as soon as the fuel exceeds the number
of characters left: every iteration strictly advances the cursor or ends
the loop. -/
theorem parseLoop_ne_outOfFuel {P : Parser} {text : List Char}
    (hsymU : ∀ op ∈ P.unaryOperators, op.symbol ≠ "")
    (hsymB : ∀ op ∈ P.binaryOperators, op.symbol ≠ "") :
    ∀ (fuel pointer : Nat) (proc : OperatorProcessor),
      text.length - pointer < fuel →
      parseLoop P text fuel pointer proc ≠ .outOfFuel := by
  intro fuel
  induction fuel with
  | zero =>
    intro pointer proc hfuel
    omega
  | succ n ih =>
    intro pointer proc hfuel
    rw [parseLoop]
    split
    case isTrue hlt =>
      rcases hw : getWhitespaceClaimToken text pointer with _ | ⟨s, e⟩
      · rcases ht : parseToken P text pointer proc with err | ⟨e, proc2⟩
        · simp
        · have hadv := parseToken_advances hsymU hsymB ht
          exact ih e proc2 (by omega)
      · have hadv := getWhitespaceClaimToken_advances hw
        exact ih e proc (by omega)
    case isFalse =>
      cases proc.done <;> simp

/-- A parser extended (via `Parser.addOperator`) with a user-registered
unary operator whose symbol is the empty string.  `getOperatorClaimToken`
always succeeds for an empty symbol with a zero-length span, so the scan
loop claims it on every pass without advancing the cursor. -/
def emptySymbolParser : Parser :=
  defaultParser.addOperator (.Unary ("Empty") (""))

/-- Divergence of the driver loop on `text`: no amount of fuel makes the
loop finish — the model of an infinite `while` loop in the source. -/
def parseLoopDiverges (P : Parser) (text : String) : Prop :=
  ∀ fuel, parseLoop P text.toList fuel 0 (initProcessor P.defn) = .outOfFuel

/-- One iteration of the scan loop of `emptySymbolParser` on `"x"`: the
empty-symbol unary operator is claimed with a zero-length span, the
processor pushes it, and the cursor stays at `0`. -/
theorem emptySymbol_step (rem : Int) (cur last : Option TokenType) (dn : Bool)
    (nodes : List MathASTNode) (stack : List StackTriple)
    (hcon : OperatorProcessor.leftTypes.contains cur = false) :
    parseToken emptySymbolParser ['x'] 0
        ⟨DefaultParserDef, rem, cur, last, dn, nodes, stack⟩ =
      .ok (0, ⟨DefaultParserDef, rem, some TokenType.UnaryOperator, cur, dn,
        nodes, (StackEntry.op (.Unary ("Empty") ("")), 0, 0) :: stack⟩) := by
  rw [parseToken]
  rw [show getLiteralClaimToken ['x'] 0 = none from rfl]
  dsimp only
  rw [show charAt ['x'] 0 = some 'x' from rfl]
  rw [show findOperatorClaim emptySymbolParser.unaryOperators ['x'] 0 =
    some (.Unary ("Empty") (""), 0, 0) from rfl]
  dsimp only [OperatorProcessor.startPass, OperatorProcessor.addOperator,
    OperatorProcessor.addUnaryOperator, OperatorProcessor.maybeImplicitMultiply]
  have hmem : cur ∉ OperatorProcessor.leftTypes := by
    simpa using hcon
  simp [hmem, Except.map]

/-- The scan loop of `emptySymbolParser` on `"x"` never finishes: every
iteration returns to cursor `0` with one more pushed operator, for any
fuel. -/
theorem emptySymbol_loop (fuel : Nat) :
    ∀ (rem : Int) (cur last : Option TokenType) (dn : Bool)
      (nodes : List MathASTNode) (stack : List StackTriple),
      OperatorProcessor.leftTypes.contains cur = false →
      parseLoop emptySymbolParser ['x'] fuel 0
        ⟨DefaultParserDef, rem, cur, last, dn, nodes, stack⟩ = .outOfFuel := by
  induction fuel with
  | zero =>
    intro rem cur last dn nodes stack hcon
    rfl
  | succ n ih =>
    intro rem cur last dn nodes stack hcon
    rw [parseLoop]
    rw [if_pos (by decide : (0 : Nat) < (['x'] : List Char).length)]
    rw [show getWhitespaceClaimToken ['x'] 0 = none from rfl]
    rw [emptySymbol_step rem cur last dn nodes stack hcon]
    exact ih rem (some TokenType.UnaryOperator) cur dn nodes
      ((StackEntry.op (.Unary ("Empty") ("")), 0, 0) :: stack) rfl

/-- C10, counterexample: for a parser instance extended with a
user-registered unary operator whose symbol is the empty string, `parse`
on the input `"x"` does not terminate — the scan-and-reduce loop claims
the empty symbol on every pass without advancing the cursor, so no fuel
bound makes the loop finish, contradicting the claim for every parser
instance including ones extended with user-registered operators. -/
theorem C10_counterexample : parseLoopDiverges emptySymbolParser ("x") := by
  intro fuel
  exact emptySymbol_loop fuel 0 none none false [] [] rfl

/-- C10, amended: for every input text and every parser instance all of
whose registered operators (unary, binary and function) have non-empty
symbols — which includes the default catalogue — a call to `parse`
terminates: the scan-and-reduce loop is bounded by the input length (each
iteration strictly advances the cursor or ends the loop) and the call
deterministically either returns a root node or raises an error.  A parser
extended with an empty-symbol operator escapes the bound and the loop
diverges. -/
theorem C10_parse_terminates (P : Parser) (text : String)
    (hsym : ∀ op ∈ P.unaryOperators ++ P.binaryOperators ++ P.functionOperators,
      Operator.symbol op ≠ "") :
    P.parse text ≠ .outOfFuel := by
  have hU : ∀ op ∈ P.unaryOperators, op.symbol ≠ "" := fun op hm =>
    hsym op (List.mem_append_left _ (List.mem_append_left _ hm))
  have hB : ∀ op ∈ P.binaryOperators, op.symbol ≠ "" := fun op hm =>
    hsym op (List.mem_append_left _ (List.mem_append_right _ hm))
  have hlen : text.toList.length = text.length := rfl
  exact parseLoop_ne_outOfFuel hU hB (text.length + 1) 0 (initProcessor P.defn)
    (by omega)

/-- Witness for C10: the default parser (whose ten catalogue operators all
have non-empty symbols) terminates on `"1 + 2"`. -/
theorem C10_parse_terminates_witness :
    defaultParser.parse ("1 + 2") ≠ .outOfFuel :=
  C10_parse_terminates defaultParser ("1 + 2") (by decide)

/-- Witness for the amended C1: the concrete instance with the registered
unary `$` on the stack above one literal operand and the incoming `+`
(precedence 2). -/
theorem C1_binary_reduces_pending_unary_witness :
    binaryPopLoop DefaultParserDef (.finite 2)
        [(StackEntry.op (.Unary ("Dollar") ("$")), 0, 1)]
        [.Literal ⟨1, 0⟩ 1 2] =
      binaryPopLoop DefaultParserDef (.finite 2) []
        [.UnaryOperator (.Unary ("Dollar") ("$")) (.Literal ⟨1, 0⟩ 1 2) 0 1] :=
  C1_binary_reduces_pending_unary DefaultParserDef 2 ("Dollar") ("$") 0 1 []
    (.Literal ⟨1, 0⟩ 1 2) []

/-- Witness for the amended C2: the concrete close-paren after `"1"` with
an empty operator stack. -/
theorem C2_close_symbol_on_empty_stack_witness :
    OperatorProcessor.addCloseSymbol
        ⟨DefaultParserDef, 0, none, some TokenType.Literal, false,
         [.Literal ⟨1, 0⟩ 0 1], []⟩ CloseSymbol.closeParen 1 2 =
      .ok ⟨DefaultParserDef, 0, some TokenType.closeParen,
        some TokenType.Literal, false, [.Literal ⟨1, 0⟩ 0 1], []⟩ :=
  C2_close_symbol_on_empty_stack DefaultParserDef 0 none
    (some TokenType.Literal) false [.Literal ⟨1, 0⟩ 0 1] 1 2

/-- Witness for C3: the concrete no-op evaluations — `assert` applied to a
false flag and `startPass` on a finished processor. -/
theorem C3_assert_is_noop_witness :
    assert false ("message") = () ∧
    assert false ("Cannot add operator ctors after process is done") = () ∧
    OperatorProcessor.startPass
        ⟨DefaultParserDef, 0, some TokenType.Literal, none, true, [], []⟩ =
      ⟨DefaultParserDef, 0, none, some TokenType.Literal, true, [], []⟩ :=
  C3_assert_is_noop false ("message") DefaultParserDef 0
    (some TokenType.Literal) none [] []

/-- Witness for the amended C4: the concrete comma states of a two-place
function, with the marker on top and with one pending binary operator
above the marker. -/
theorem C4_comma_pops_function_marker_witness :
    OperatorProcessor.addCloseSymbol
        ⟨DefaultParserDef, 2, none, some TokenType.Literal, false,
         [.Literal ⟨1, 0⟩ 4 5], [(StackEntry.startOfFunction, 0, 3)]⟩
        CloseSymbol.comma 5 6 =
      .ok ⟨DefaultParserDef, 1, some TokenType.comma, some TokenType.Literal,
        false, [.Literal ⟨1, 0⟩ 4 5], []⟩ ∧
    OperatorProcessor.addCloseSymbol
        ⟨DefaultParserDef, 2, none, some TokenType.Literal, false,
         [.Literal ⟨2, 0⟩ 6 7, .Literal ⟨1, 0⟩ 4 5],
         [(StackEntry.op CoreOperators.sum, 5, 6),
          (StackEntry.startOfFunction, 0, 3)]⟩
        CloseSymbol.comma 5 6 =
      .ok ⟨DefaultParserDef, 1, some TokenType.comma, some TokenType.Literal,
        false,
        [.BinaryOperator CoreOperators.sum (.Literal ⟨1, 0⟩ 4 5)
          (.Literal ⟨2, 0⟩ 6 7) 5 6], []⟩ :=
  C4_comma_pops_function_marker DefaultParserDef 2 none
    (some TokenType.Literal) false [.Literal ⟨1, 0⟩ 4 5] 0 3 5 6 []
    ("Sum") ("+") .Normal 5 6 (.Literal ⟨1, 0⟩ 4 5) (.Literal ⟨2, 0⟩ 6 7) []
